import Mathlib

/-!
Verification of the Zyth transpiler core (`zyth_core`): a shallow embedding of
`codegen.py` (class `ZigCodeGenerator`), `parser.py` (`ParsedModule`), and the
runtime-lookup logic of `compiler.py` (`compile_zig`), together with theorems
settling the frozen claims about the code generator and build driver.

The Python AST subset handled by the code is modelled as tagged variants.
Machine-irrelevant metadata (line numbers, contexts) is omitted; every node
field the code reads is present.
-/

/-- A Python `ast.Constant` value as the code distinguishes them:
`isinstance(node.value, str)` selects the string case; every other literal is
printed with `str(...)`, modelled here by its decimal text via `Int`. -/
inductive ConstVal where
  | str (s : String)
  | num (n : Int)
deriving DecidableEq

/-- Binary operator kinds (`ast.Add` etc.).  `otherOp` stands for any operator
class outside the five the code maps; `visit_bin_op` defaults those to `+`. -/
inductive BinOpKind where
  | add
  | sub
  | mult
  | div
  | mod
  | otherOp (clsName : String)
deriving DecidableEq

/-- Comparison operator kinds (`ast.Lt` etc.); `otherCmp` covers operator
classes outside the six mapped ones, which `visit_compare_op` defaults
to `==`. -/
inductive CmpOpKind where
  | lt
  | le
  | gt
  | ge
  | eq
  | ne
  | otherCmp (clsName : String)
deriving DecidableEq

/-- Expression nodes.  `Compare` in the Python AST carries lists `ops` and
`comparators`; the code only ever reads `ops[0]` and `comparators[0]`
(`visit_expr`), so the first elements are modelled.  `other` stands for any
expression class without a case in `visit_expr` (e.g. `ast.Attribute`),
carrying the class name used in the raised error. -/
inductive Expr where
  | name (id : String)
  | const (v : ConstVal)
  | binop (left : Expr) (op : BinOpKind) (right : Expr)
  | compare (left : Expr) (op : CmpOpKind) (comparator : Expr)
  | call (func : Expr) (args : List Expr)
  | other (clsName : String)

/-- An assignment target: either an `ast.Name` or any other target shape
(`ast.Attribute`, `ast.Subscript`, `ast.Tuple`, ...), which both analysis
passes and `visit_Assign` treat uniformly by ignoring it. -/
inductive Target where
  | name (id : String)
  | other (clsName : String)

/-- A function parameter: `ast.arg` with its optional annotation. -/
structure Arg where
  arg : String
  annotation : Option Expr

/-- Statement nodes.  `assign` keeps the Python invariant that
`node.targets` is non-empty by separating the first target (the only one
`visit_Assign` reads, via `node.targets[0]`).  `other` stands for any
statement class without a `visit_` method (e.g. `ast.For`), carrying the
class name used by `generic_visit` in its error message. -/
inductive Stmt where
  | functionDef (name : String) (args : List Arg) (returns : Option Expr) (body : List Stmt)
  | ifStmt (test : Expr) (body : List Stmt) (orelse : List Stmt)
  | whileStmt (test : Expr) (body : List Stmt)
  | ret (value : Option Expr)
  | assign (target0 : Target) (targetsRest : List Target) (value : Expr)
  | exprStmt (value : Expr)
  | other (clsName : String)

/-- `ParsedModule` from `parser.py`: the module body (an `ast.Module` is its
list of top-level statements), the source text and the filename. -/
structure ParsedModule where
  ast_tree : List Stmt
  source : String
  filename : String

/-- The mutable state of a `ZigCodeGenerator` instance (`__init__`).
Python's `set[str]` fields are modelled as lists used only through
membership and insertion, matching how the code uses them. -/
structure GenState where
  indent_level : Nat
  output : List String
  needs_runtime : Bool
  needs_allocator : Bool
  declared_vars : List String
  reassigned_vars : List String

/-- The state of a freshly constructed generator (`ZigCodeGenerator()`). -/
def initState : GenState :=
  { indent_level := 0, output := [], needs_runtime := false, needs_allocator := false,
    declared_vars := [], reassigned_vars := [] }

/-- `indent`: four spaces per indentation level (`"    " * self.indent_level`). -/
def indentStr (n : Nat) : String :=
  String.join (List.replicate n "    ")

/-- `emit`: append one line, prefixed by the current indentation. -/
def emit (s : GenState) (code : String) : GenState :=
  { s with output := s.output ++ [indentStr s.indent_level ++ code] }

/-- `set.add` on the list model of a Python set: no-op when present. -/
def setAdd (x : String) (l : List String) : List String :=
  if x ∈ l then l else l ++ [x]

/-- `_detect_runtime_needs` on expression nodes.  A string `Constant` sets
both flags; a `BinOp` recurses into both operands; every other expression
class matches no branch of the `if`/`elif` chain and leaves the state
unchanged — in particular `Call` arguments and `Compare` operands are never
scanned. -/
def detectE : Expr → GenState → GenState
  | .const (.str _), s => { s with needs_runtime := true, needs_allocator := true }
  | .binop l _ r, s => detectE r (detectE l s)
  | _, s => s

mutual

/-- `_detect_runtime_needs` on statement nodes.  `Assign` recurses into the
targets (target shapes are `Name`/`Attribute`/`Subscript`/`Tuple`, none of
which matches a branch, so that recursion is the identity) and then the
value; `Expr` into its value; `FunctionDef`, `If`, `While` into their bodies
(for `If` also the else body) — the `test` expressions are not visited;
`Return` into its value when present.  Other statement kinds do nothing. -/
def detectS : Stmt → GenState → GenState
  | .assign _ _ v, s => detectE v s
  | .exprStmt v, s => detectE v s
  | .functionDef _ _ _ body, s => detectL body s
  | .ret (some v), s => detectE v s
  | .ifStmt _ body orelse, s => detectL orelse (detectL body s)
  | .whileStmt _ body, s => detectL body s
  | _, s => s

/-- Sequential `_detect_runtime_needs` over a statement list (`for stmt in
node.body: self._detect_runtime_needs(stmt)`). -/
def detectL : List Stmt → GenState → GenState
  | [], s => s
  | n :: rest, s => detectL rest (detectS n s)

end

/-- The target loop of `_detect_reassignments` on an `Assign`: a `Name`
target already in `declared_vars` is added to `reassigned_vars`, otherwise
it is added to `declared_vars`; non-`Name` targets are skipped. -/
def detectReTargets : List Target → GenState → GenState
  | [], s => s
  | .name id :: rest, s =>
      if id ∈ s.declared_vars then
        detectReTargets rest { s with reassigned_vars := setAdd id s.reassigned_vars }
      else
        detectReTargets rest { s with declared_vars := setAdd id s.declared_vars }
  | .other _ :: rest, s => detectReTargets rest s

mutual

/-- `_detect_reassignments` on statement nodes: `Assign` processes its
targets; `FunctionDef`, `If` (body then else body) and `While` recurse into
their statement bodies; other kinds do nothing. -/
def detectReS : Stmt → GenState → GenState
  | .assign t0 rest _, s => detectReTargets (t0 :: rest) s
  | .functionDef _ _ _ body, s => detectReL body s
  | .ifStmt _ body orelse, s => detectReL orelse (detectReL body s)
  | .whileStmt _ body, s => detectReL body s
  | _, s => s

/-- Sequential `_detect_reassignments` over a statement list. -/
def detectReL : List Stmt → GenState → GenState
  | [], s => s
  | n :: rest, s => detectReL rest (detectReS n s)

end

/-- Number of times `x` occurs as a `Name` assignment target in a target
list. -/
def countTargets (x : String) : List Target → Nat
  | [] => 0
  | .name id :: rest => (if id = x then 1 else 0) + countTargets x rest
  | .other _ :: rest => countTargets x rest

mutual

/-- Number of `Name`-target assignments to `x` inside one statement, over
exactly the statement bodies `_detect_reassignments` scans. -/
def countS (x : String) : Stmt → Nat
  | .assign t0 rest _ => countTargets x (t0 :: rest)
  | .functionDef _ _ _ body => countL x body
  | .ifStmt _ body orelse => countL x body + countL x orelse
  | .whileStmt _ body => countL x body
  | _ => 0

/-- Number of `Name`-target assignments to `x` in a statement list. -/
def countL (x : String) : List Stmt → Nat
  | [] => 0
  | n :: rest => countS x n + countL x rest

end

/-- The first pass of `generate`: per top-level node, `_detect_runtime_needs`
then `_detect_reassignments`. -/
def analyzeModule (body : List Stmt) (s : GenState) : GenState :=
  body.foldl (fun acc n => detectReS n (detectS n acc)) s

/-- The state reset performed at the start of `generate`: `output`, both
flags and both name sets are cleared; `indent_level` is the one generator
field `generate` does not reset. -/
def resetForGenerate (s : GenState) : GenState :=
  { s with output := [], needs_runtime := false, needs_allocator := false,
           declared_vars := [], reassigned_vars := [] }

/-- `visit_compare_op`: map of the six comparison operator classes, with
`"=="` as the dictionary-lookup default. -/
def visitCompareOp : CmpOpKind → String
  | .lt => "<"
  | .le => "<="
  | .gt => ">"
  | .ge => ">="
  | .eq => "=="
  | .ne => "!="
  | .otherCmp _ => "=="

/-- `visit_bin_op`: map of the five arithmetic operator classes, with `"+"`
as the dictionary-lookup default. -/
def visitBinOp : BinOpKind → String
  | .add => "+"
  | .sub => "-"
  | .mult => "*"
  | .div => "/"
  | .mod => "%"
  | .otherOp _ => "+"

/-- `visit_type`: a `Name` annotation is looked up in the fixed type table
(default `anytype`); any other annotation shape is `anytype`. -/
def visitType : Expr → String
  | .name id =>
      if id = "int" then "i64"
      else if id = "float" then "f64"
      else if id = "bool" then "bool"
      else if id = "str" then "[]const u8"
      else "anytype"
  | _ => "anytype"

mutual

/-- `visit_expr`: lower an expression to `(code, needs_try)`.  The only
generator field the Python method reads is `self.needs_runtime`, passed here
as `needsRuntime`; it writes none.  Unsupported expression classes raise
`NotImplementedError`, modelled by `Except.error`. -/
def visitExpr (needsRuntime : Bool) : Expr → Except String (String × Bool)
  | .name id => .ok (id, false)
  | .const (.str v) =>
      .ok ("runtime.PyString.create(allocator, \"" ++ v ++ "\")", true)
  | .const (.num n) => .ok (toString n, false)
  | .compare l op r => do
      let lc ← visitExpr needsRuntime l
      let rc ← visitExpr needsRuntime r
      .ok (lc.1 ++ " " ++ visitCompareOp op ++ " " ++ rc.1, false)
  | .binop l op r => do
      let lc ← visitExpr needsRuntime l
      let rc ← visitExpr needsRuntime r
      if lc.2 || rc.2 then
        .ok ("runtime.PyString.concat(allocator, " ++ lc.1 ++ ", " ++ rc.1 ++ ")", true)
      else
        .ok (lc.1 ++ " " ++ visitBinOp op ++ " " ++ rc.1, false)
  | .call f argsE => do
      let fc ← visitExpr needsRuntime f
      let args ← visitExprArgs needsRuntime argsE
      if fc.1 = "print" then
        match argsE, args with
        | a0 :: _, (ac, acTry) :: _ =>
            if needsRuntime then
              match a0 with
              | .name an =>
                  .ok ("std.debug.print(\"\x7bs\x7d\\n\", .\x7bPyString.getValue(" ++ an ++ ")\x7d)", false)
              | _ =>
                  if acTry then
                    .ok ("std.debug.print(\"\x7bs\x7d\\n\", .\x7bPyString.getValue(try " ++ ac ++ ")\x7d)", false)
                  else
                    .ok ("std.debug.print(\"\x7b\x7d\\n\", .\x7b" ++ ac ++ "\x7d)", false)
            else
              .ok ("std.debug.print(\"\x7b\x7d\\n\", .\x7b" ++ ac ++ "\x7d)", false)
        | _, _ => .ok ("std.debug.print(\"\\n\", .\x7b\x7d)", false)
      else
        .ok (fc.1 ++ "(" ++ String.intercalate ", " (args.map Prod.fst) ++ ")", false)
  | .other clsName => .error ("Expression not implemented: " ++ clsName)

/-- The argument list comprehension of the `Call` case
(`[self.visit_expr(arg) for arg in node.args]`): left-to-right, propagating
the first raised error. -/
def visitExprArgs (needsRuntime : Bool) : List Expr → Except String (List (String × Bool))
  | [] => .ok []
  | e :: rest => do
      let r ← visitExpr needsRuntime e
      let rs ← visitExprArgs needsRuntime rest
      .ok (r :: rs)

end

/-- `_flatten_binop_chain`: flatten a left-leaning operator chain.  The left
child is descended into exactly when it is itself a `BinOp` whose operator
is an instance of `op_type`; otherwise it is kept whole, and the right child
is always appended last.  The function is only ever called on a `BinOp`
node; the catch-all last case (where Python would fail to read `node.left`)
is unreachable from the generator. -/
def flattenBinopChain : Expr → BinOpKind → List Expr
  | .binop l _ r, opT =>
      (match l with
       | .binop _ lop _ => if lop = opT then flattenBinopChain l opT else [l]
       | _ => [l]) ++ [r]
  | _, _ => []

/-- The temp-binding loop of the object path of `visit_Assign`: for the
`i`-th part (enumeration starts at `i`), a fallible part gets a fresh
`const _temp_{t}_{i}` binding with `try` and a `defer` release, and its temp
name joins the part list; a non-fallible part is used directly. -/
def emitTempParts (id : String) : List (String × Bool) → Nat → GenState → GenState × List String
  | [], _, s => (s, [])
  | (code, fallible) :: rest, i, s =>
      if fallible then
        let tv := "_temp_" ++ id ++ "_" ++ toString i
        let s2 := emit (emit s ("const " ++ tv ++ " = try " ++ code ++ ";"))
          ("defer runtime.decref(" ++ tv ++ ", allocator);")
        let r := emitTempParts id rest (i + 1) s2
        (r.1, tv :: r.2)
      else
        let r := emitTempParts id rest (i + 1) s
        (r.1, code :: r.2)

/-- The concat-fold loop of the object path (`for i in range(1,
len(temp_vars))`): each step binds `const _concat_{t}_{i}`, and every
intermediate step (`i < len(temp_vars) - 1`) also emits a `defer` release;
`n` is `len(temp_vars)` and `res` the running result variable. -/
def emitConcatChain (id : String) (n : Nat) : List String → Nat → String → GenState → GenState × String
  | [], _, res, s => (s, res)
  | tv :: rest, i, res, s =>
      let nextVar := "_concat_" ++ id ++ "_" ++ toString i
      let s := emit s ("const " ++ nextVar ++ " = try runtime.PyString.concat(allocator, " ++ res ++ ", " ++ tv ++ ");")
      let s := if i < n - 1 then emit s ("defer runtime.decref(" ++ nextVar ++ ", allocator);") else s
      emitConcatChain id n rest (i + 1) nextVar s

/-- The object path of `visit_Assign` after the parts have been lowered:
temp bindings, the concat fold, the binding of the target (with the chosen
keyword on first assignment, plain re-store otherwise), and on first
assignment a `defer` release for the target.  The empty-parts case models
the `temp_vars[0]` indexing error Python would raise; it is unreachable
because a flattened chain always has at least two parts. -/
def assignObjectPath (id varKeyword : String) (isFirst : Bool)
    (partsCode : List (String × Bool)) (s : GenState) : Except String GenState :=
  match (emitTempParts id partsCode 0 s).2 with
  | [] => .error "IndexError: list index out of range"
  | [tv] =>
      if isFirst then
        .ok (emit (emit (emitTempParts id partsCode 0 s).1
              (varKeyword ++ " " ++ id ++ " = " ++ tv ++ ";"))
          ("defer runtime.decref(" ++ id ++ ", allocator);"))
      else
        .ok (emit (emitTempParts id partsCode 0 s).1 (id ++ " = " ++ tv ++ ";"))
  | tv0 :: tv1 :: rest =>
      if isFirst then
        .ok (emit (emit (emitConcatChain id (tv0 :: tv1 :: rest).length (tv1 :: rest) 1 tv0
                (emitTempParts id partsCode 0 s).1).1
              (varKeyword ++ " " ++ id ++ " = " ++
                (emitConcatChain id (tv0 :: tv1 :: rest).length (tv1 :: rest) 1 tv0
                  (emitTempParts id partsCode 0 s).1).2 ++ ";"))
          ("defer runtime.decref(" ++ id ++ ", allocator);"))
      else
        .ok (emit (emitConcatChain id (tv0 :: tv1 :: rest).length (tv1 :: rest) 1 tv0
              (emitTempParts id partsCode 0 s).1).1
          (id ++ " = " ++
            (emitConcatChain id (tv0 :: tv1 :: rest).length (tv1 :: rest) 1 tv0
              (emitTempParts id partsCode 0 s).1).2 ++ ";"))

/-- The default (primitive) path of `visit_Assign`: first assignments get
the chosen keyword — with an explicit `i64` annotation when the keyword is
`var` and the value is not fallible, or a `try` and a `defer` release when
it is —; re-assignments get neither keyword nor type. -/
def assignDefaultPath (id varKeyword : String) (isFirst : Bool) (v : Expr)
    (s : GenState) : Except String GenState :=
  match visitExpr s.needs_runtime v with
  | .error e => .error e
  | .ok vc =>
    if isFirst then
      if vc.2 then
        let s := emit s (varKeyword ++ " " ++ id ++ " = try " ++ vc.1 ++ ";")
        .ok (emit s ("defer runtime.decref(" ++ id ++ ", allocator);"))
      else
        if varKeyword = "var" then
          .ok (emit s (varKeyword ++ " " ++ id ++ ": i64 = " ++ vc.1 ++ ";"))
        else
          .ok (emit s (varKeyword ++ " " ++ id ++ " = " ++ vc.1 ++ ";"))
    else
      if vc.2 then .ok (emit s (id ++ " = try " ++ vc.1 ++ ";"))
      else .ok (emit s (id ++ " = " ++ vc.1 ++ ";"))

/-- `visit_Assign`.  Only the first target is consulted; a non-`Name` first
target matches no branch and the method returns with nothing emitted.  For a
`Name` target the keyword is chosen from `reassigned_vars`, first assignment
is recorded in `declared_vars`, and a value that is a `BinOp` with an `Add`
operator is flattened and takes the object path when any part is fallible or
the runtime flag is set; otherwise the default path runs. -/
def visitAssign (t0 : Target) (v : Expr) (s : GenState) : Except String GenState :=
  match t0 with
  | .other _ => .ok s
  | .name id =>
    let varKeyword := if id ∈ s.reassigned_vars then "var" else "const"
    let isFirst : Bool := decide (id ∉ s.declared_vars)
    let s1 := if isFirst then { s with declared_vars := setAdd id s.declared_vars } else s
    match v with
    | .binop l .add r =>
        match (flattenBinopChain (Expr.binop l BinOpKind.add r) BinOpKind.add).mapM
          (visitExpr s1.needs_runtime) with
        | .error e => .error e
        | .ok partsCode =>
          if s1.needs_runtime || partsCode.any (fun p => p.2) then
            assignObjectPath id varKeyword isFirst partsCode s1
          else
            assignDefaultPath id varKeyword isFirst v s1
    | _ => assignDefaultPath id varKeyword isFirst v s1

mutual

/-- `visit`: dynamic dispatch on the node class.  Classes with a `visit_`
method are handled; every other class falls to `generic_visit`, which raises
`NotImplementedError` carrying the class name. -/
def visit : Stmt → GenState → Except String GenState
  | .functionDef nm args rets body, s =>
      let returnType := match rets with | some r => visitType r | none => "void"
      let paramsStr := String.intercalate ", "
        (args.map (fun a => a.arg ++ ": " ++
          (match a.annotation with | some ann => visitType ann | none => "i64")))
      let s1 := emit s ("fn " ++ nm ++ "(" ++ paramsStr ++ ") " ++ returnType ++ " \x7b")
      (match visitList body { s1 with indent_level := s1.indent_level + 1 } with
       | .error e => .error e
       | .ok s2 =>
          let s3 := emit { s2 with indent_level := s2.indent_level - 1 } "\x7d"
          .ok (emit s3 ""))
  | .ifStmt test body orelse, s =>
      (match visitExpr s.needs_runtime test with
       | .error e => .error e
       | .ok tc =>
        let s1 := emit s ("if (" ++ tc.1 ++ ") \x7b")
        match visitList body { s1 with indent_level := s1.indent_level + 1 } with
        | .error e => .error e
        | .ok s2 =>
          let s3 := { s2 with indent_level := s2.indent_level - 1 }
          if orelse.isEmpty then
            .ok (emit s3 "\x7d")
          else
            let s4 := emit s3 "\x7d else \x7b"
            match visitList orelse { s4 with indent_level := s4.indent_level + 1 } with
            | .error e => .error e
            | .ok s5 => .ok (emit { s5 with indent_level := s5.indent_level - 1 } "\x7d"))
  | .whileStmt test body, s =>
      (match visitExpr s.needs_runtime test with
       | .error e => .error e
       | .ok tc =>
        let s1 := emit s ("while (" ++ tc.1 ++ ") \x7b")
        match visitList body { s1 with indent_level := s1.indent_level + 1 } with
        | .error e => .error e
        | .ok s2 => .ok (emit { s2 with indent_level := s2.indent_level - 1 } "\x7d"))
  | .ret (some v), s =>
      (match visitExpr s.needs_runtime v with
       | .error e => .error e
       | .ok vc =>
        if vc.2 then .ok (emit s ("return try " ++ vc.1 ++ ";"))
        else .ok (emit s ("return " ++ vc.1 ++ ";")))
  | .ret none, s => .ok (emit s "return;")
  | .assign t0 _ v, s => visitAssign t0 v s
  | .exprStmt (.const (.str _)), s => .ok s
  | .exprStmt v, s =>
      (match visitExpr s.needs_runtime v with
       | .error e => .error e
       | .ok ec =>
        if ec.2 then .ok (emit s ("_ = try " ++ ec.1 ++ ";"))
        else .ok (emit s ("_ = " ++ ec.1 ++ ";")))
  | .other clsName, _ => .error ("Code generation not implemented for " ++ clsName)

/-- Sequential visiting of a statement list, stopping at the first raised
error. -/
def visitList : List Stmt → GenState → Except String GenState
  | [], s => .ok s
  | n :: rest, s =>
      match visit n s with
      | .error e => .error e
      | .ok s' => visitList rest s'

end

/-- Whether a top-level node goes into the function partition of
`generate`. -/
def isFunctionDef : Stmt → Bool
  | .functionDef .. => true
  | _ => false

/-- The import header of `generate`: the standard-library import, the
runtime import when `needs_runtime`, and a blank line. -/
def emitHeader (s : GenState) : GenState :=
  let s1 := emit s "const std = @import(\"std\");"
  let s2 := if s1.needs_runtime then emit s1 "const runtime = @import(\"runtime\");" else s1
  emit s2 ""

/-- The opening of the `main` wrapper in `generate`: a fallible entry with
general-purpose-allocator setup and a blank separator when
`needs_allocator`, a `void` entry otherwise; either way the indentation
level moves one deeper. -/
def openMain (s : GenState) : GenState :=
  if s.needs_allocator then
    let t1 := emit s "pub fn main() !void \x7b"
    let t2 := { t1 with indent_level := t1.indent_level + 1 }
    let t3 := emit t2 "var gpa = std.heap.GeneralPurposeAllocator(.\x7b\x7d)\x7b\x7d;"
    let t4 := emit t3 "defer _ = gpa.deinit();"
    let t5 := emit t4 "const allocator = gpa.allocator();"
    emit t5 ""
  else
    let t1 := emit s "pub fn main() void \x7b"
    { t1 with indent_level := t1.indent_level + 1 }

/-- The body of `generate` after the state reset: analysis passes, header
emission, partition into functions and top-level code, function emission,
and the optional `main` wrapper around the top-level statements. -/
def generateCore (s0 : GenState) (p : ParsedModule) : Except String (String × GenState) :=
  let sE := emitHeader { analyzeModule p.ast_tree s0 with declared_vars := [] }
  let functions := p.ast_tree.filter isFunctionDef
  let topLevel := p.ast_tree.filter (fun n => !isFunctionDef n)
  match visitList functions sE with
  | .error e => .error e
  | .ok sF =>
    if topLevel.isEmpty then
      .ok (String.intercalate "\n" sF.output, sF)
    else
      match visitList topLevel (openMain sF) with
      | .error e => .error e
      | .ok sH =>
        let sI := emit { sH with indent_level := sH.indent_level - 1 } "\x7d"
        .ok (String.intercalate "\n" sI.output, sI)

/-- `ZigCodeGenerator.generate`: reset the instance state (all fields except
`indent_level`), then run the analysis and emission pipeline.  The returned
pair is the joined output string and the generator state after the call. -/
def generate (s0 : GenState) (p : ParsedModule) : Except String (String × GenState) :=
  generateCore (resetForGenerate s0) p

/-- Module-level `generate_code`: a fresh generator instance per call. -/
def generateCode (p : ParsedModule) : Except String String :=
  (generate initState p).map Prod.fst

/-- The fixed ordered candidate list for `runtime.zig` in `compile_zig`:
first the development path relative to the package tree
(`Path(__file__).parent.parent.parent`), then the monorepo path under the
current working directory. -/
def possiblePaths (pkgRoot cwd : String) : List String :=
  [pkgRoot ++ "/runtime/src/runtime.zig",
   cwd ++ "/packages/runtime/src/runtime.zig"]

/-- The `CompilationError` message raised when no candidate path exists:
it names every path searched, one per line. -/
def runtimeNotFoundMessage (paths : List String) : String :=
  "Runtime library not found. Searched:\n" ++
    String.intercalate "\n" (paths.map (fun p => "  - " ++ p))

/-- The runtime-lookup loop of `compile_zig`: scan the candidate list in
order and keep the first extant path (`for path in possible_paths: if
path.exists(): ... break`); when none exists, raise the error listing the
searched paths.  The file system is abstracted by the `pathExists`
predicate. -/
def locateRuntimeSource (pathExists : String → Bool) (pkgRoot cwd : String) :
    Except String String :=
  match (possiblePaths pkgRoot cwd).find? pathExists with
  | some p => .ok p
  | none => .error (runtimeNotFoundMessage (possiblePaths pkgRoot cwd))

/-- A left-leaning `Add` chain `((a + b) + c) + d` over leaf `a` and further
leaves `rest`. -/
def mkAddChain (a : Expr) (rest : List Expr) : Expr :=
  rest.foldl (fun acc e => Expr.binop acc BinOpKind.add e) a

/-- Membership in the list model of `set.add`. -/
theorem mem_setAdd {x y : String} {l : List String} : x ∈ setAdd y l ↔ x ∈ l ∨ x = y := by
  unfold setAdd
  split
  · constructor
    · exact Or.inl
    · rintro (hx | rfl)
      · exact hx
      · assumption
  · simp

/-- `_detect_runtime_needs` on expressions changes nothing but the two
flags. -/
theorem detectE_sets : ∀ (e : Expr) (s : GenState),
    (detectE e s).indent_level = s.indent_level ∧ (detectE e s).output = s.output ∧
    (detectE e s).declared_vars = s.declared_vars ∧
    (detectE e s).reassigned_vars = s.reassigned_vars
  | .name _, _ => ⟨rfl, rfl, rfl, rfl⟩
  | .const (.str _), _ => ⟨rfl, rfl, rfl, rfl⟩
  | .const (.num _), _ => ⟨rfl, rfl, rfl, rfl⟩
  | .binop l _ r, s => by
      have hl := detectE_sets l s
      have hr := detectE_sets r (detectE l s)
      exact ⟨hr.1.trans hl.1, hr.2.1.trans hl.2.1, hr.2.2.1.trans hl.2.2.1,
        hr.2.2.2.trans hl.2.2.2⟩
  | .compare _ _ _, _ => ⟨rfl, rfl, rfl, rfl⟩
  | .call _ _, _ => ⟨rfl, rfl, rfl, rfl⟩
  | .other _, _ => ⟨rfl, rfl, rfl, rfl⟩

/-- `_detect_runtime_needs` on expressions preserves the invariant that the
allocator flag is set whenever the runtime flag is (both are set at the same
single place). -/
theorem detectE_inv : ∀ (e : Expr) (s : GenState),
    (s.needs_runtime = true → s.needs_allocator = true) →
    ((detectE e s).needs_runtime = true → (detectE e s).needs_allocator = true)
  | .name _, _, h => h
  | .const (.str _), _, _ => fun _ => rfl
  | .const (.num _), _, h => h
  | .binop l _ r, s, h => detectE_inv r (detectE l s) (detectE_inv l s h)
  | .compare _ _ _, _, h => h
  | .call _ _, _, h => h
  | .other _, _, h => h

mutual

/-- `_detect_runtime_needs` on statements changes nothing but the two
flags. -/
theorem detectS_sets : ∀ (n : Stmt) (s : GenState),
    (detectS n s).indent_level = s.indent_level ∧ (detectS n s).output = s.output ∧
    (detectS n s).declared_vars = s.declared_vars ∧
    (detectS n s).reassigned_vars = s.reassigned_vars
  | .assign _ _ v, s => detectE_sets v s
  | .exprStmt v, s => detectE_sets v s
  | .functionDef _ _ _ body, s => detectL_sets body s
  | .ret (some v), s => detectE_sets v s
  | .ret none, _ => ⟨rfl, rfl, rfl, rfl⟩
  | .ifStmt _ body orelse, s => by
      have h1 := detectL_sets body s
      have h2 := detectL_sets orelse (detectL body s)
      exact ⟨h2.1.trans h1.1, h2.2.1.trans h1.2.1, h2.2.2.1.trans h1.2.2.1,
        h2.2.2.2.trans h1.2.2.2⟩
  | .whileStmt _ body, s => detectL_sets body s
  | .other _, _ => ⟨rfl, rfl, rfl, rfl⟩

/-- Statement-list version of `detectS_sets`. -/
theorem detectL_sets : ∀ (l : List Stmt) (s : GenState),
    (detectL l s).indent_level = s.indent_level ∧ (detectL l s).output = s.output ∧
    (detectL l s).declared_vars = s.declared_vars ∧
    (detectL l s).reassigned_vars = s.reassigned_vars
  | [], _ => ⟨rfl, rfl, rfl, rfl⟩
  | n :: rest, s => by
      have h1 := detectS_sets n s
      have h2 := detectL_sets rest (detectS n s)
      exact ⟨h2.1.trans h1.1, h2.2.1.trans h1.2.1, h2.2.2.1.trans h1.2.2.1,
        h2.2.2.2.trans h1.2.2.2⟩

end

mutual

/-- Flag invariant preservation for `_detect_runtime_needs` on
statements. -/
theorem detectS_inv : ∀ (n : Stmt) (s : GenState),
    (s.needs_runtime = true → s.needs_allocator = true) →
    ((detectS n s).needs_runtime = true → (detectS n s).needs_allocator = true)
  | .assign _ _ v, s, h => detectE_inv v s h
  | .exprStmt v, s, h => detectE_inv v s h
  | .functionDef _ _ _ body, s, h => detectL_inv body s h
  | .ret (some v), s, h => detectE_inv v s h
  | .ret none, _, h => h
  | .ifStmt _ body orelse, s, h => detectL_inv orelse (detectL body s) (detectL_inv body s h)
  | .whileStmt _ body, s, h => detectL_inv body s h
  | .other _, _, h => h

/-- Flag invariant preservation over statement lists. -/
theorem detectL_inv : ∀ (l : List Stmt) (s : GenState),
    (s.needs_runtime = true → s.needs_allocator = true) →
    ((detectL l s).needs_runtime = true → (detectL l s).needs_allocator = true)
  | [], _, h => h
  | n :: rest, s, h => detectL_inv rest (detectS n s) (detectS_inv n s h)

end

/-- `_detect_reassignments` target processing changes nothing but the two
name sets. -/
theorem detectReTargets_frame : ∀ (tgts : List Target) (s : GenState),
    (detectReTargets tgts s).indent_level = s.indent_level ∧
    (detectReTargets tgts s).output = s.output ∧
    (detectReTargets tgts s).needs_runtime = s.needs_runtime ∧
    (detectReTargets tgts s).needs_allocator = s.needs_allocator
  | [], _ => ⟨rfl, rfl, rfl, rfl⟩
  | .name id :: rest, s => by
      by_cases h : id ∈ s.declared_vars
      · have := detectReTargets_frame rest { s with reassigned_vars := setAdd id s.reassigned_vars }
        simpa [detectReTargets, h] using this
      · have := detectReTargets_frame rest { s with declared_vars := setAdd id s.declared_vars }
        simpa [detectReTargets, h] using this
  | .other _ :: rest, s => detectReTargets_frame rest s

mutual

/-- `_detect_reassignments` on statements changes nothing but the two name
sets. -/
theorem detectReS_frame : ∀ (n : Stmt) (s : GenState),
    (detectReS n s).indent_level = s.indent_level ∧ (detectReS n s).output = s.output ∧
    (detectReS n s).needs_runtime = s.needs_runtime ∧
    (detectReS n s).needs_allocator = s.needs_allocator
  | .assign t0 rest _, s => detectReTargets_frame (t0 :: rest) s
  | .functionDef _ _ _ body, s => detectReL_frame body s
  | .ifStmt _ body orelse, s => by
      have h1 := detectReL_frame body s
      have h2 := detectReL_frame orelse (detectReL body s)
      exact ⟨h2.1.trans h1.1, h2.2.1.trans h1.2.1, h2.2.2.1.trans h1.2.2.1,
        h2.2.2.2.trans h1.2.2.2⟩
  | .whileStmt _ body, s => detectReL_frame body s
  | .ret _, _ => ⟨rfl, rfl, rfl, rfl⟩
  | .exprStmt _, _ => ⟨rfl, rfl, rfl, rfl⟩
  | .other _, _ => ⟨rfl, rfl, rfl, rfl⟩

/-- Statement-list version of `detectReS_frame`. -/
theorem detectReL_frame : ∀ (l : List Stmt) (s : GenState),
    (detectReL l s).indent_level = s.indent_level ∧ (detectReL l s).output = s.output ∧
    (detectReL l s).needs_runtime = s.needs_runtime ∧
    (detectReL l s).needs_allocator = s.needs_allocator
  | [], _ => ⟨rfl, rfl, rfl, rfl⟩
  | n :: rest, s => by
      have h1 := detectReS_frame n s
      have h2 := detectReL_frame rest (detectReS n s)
      exact ⟨h2.1.trans h1.1, h2.2.1.trans h1.2.1, h2.2.2.1.trans h1.2.2.1,
        h2.2.2.2.trans h1.2.2.2⟩

end

/-- Composing two passes that each satisfy the declared/reassigned
membership characterization yields the characterization for the summed
counts. -/
theorem reChars_compose {P0 P1 P2 Q0 Q1 Q2 : Prop} {c1 c2 : Nat}
    (h1 : P1 ↔ P0 ∨ 1 ≤ c1) (h2 : Q1 ↔ Q0 ∨ (P0 ∧ 1 ≤ c1) ∨ 2 ≤ c1)
    (h3 : P2 ↔ P1 ∨ 1 ≤ c2) (h4 : Q2 ↔ Q1 ∨ (P1 ∧ 1 ≤ c2) ∨ 2 ≤ c2) :
    (P2 ↔ P0 ∨ 1 ≤ c1 + c2) ∧ (Q2 ↔ Q0 ∨ (P0 ∧ 1 ≤ c1 + c2) ∨ 2 ≤ c1 + c2) := by
  constructor
  · rw [h3, h1]
    by_cases hp : P0
    all_goals simp [hp]
    all_goals omega
  · rw [h4, h2, h1]
    by_cases hp : P0
    all_goals by_cases hq : Q0
    all_goals simp [hp, hq]
    all_goals omega

/-- Characterization of `_detect_reassignments` target processing: after the
loop, a name is declared iff it was declared before or occurs as a target,
and reassigned iff it was reassigned before, or was declared before and
occurs, or occurs at least twice. -/
theorem detectReTargets_chars : ∀ (tgts : List Target) (s : GenState) (x : String),
    (x ∈ (detectReTargets tgts s).declared_vars ↔
      x ∈ s.declared_vars ∨ 1 ≤ countTargets x tgts) ∧
    (x ∈ (detectReTargets tgts s).reassigned_vars ↔
      x ∈ s.reassigned_vars ∨ (x ∈ s.declared_vars ∧ 1 ≤ countTargets x tgts) ∨
        2 ≤ countTargets x tgts)
  | [], s, x => by simp [detectReTargets, countTargets]
  | .name id :: rest, s, x => by
      by_cases h : id ∈ s.declared_vars
      · have ih := detectReTargets_chars rest { s with reassigned_vars := setAdd id s.reassigned_vars } x
        have step1 : x ∈ s.declared_vars
            ↔ x ∈ s.declared_vars ∨ 1 ≤ (if id = x then 1 else 0) := by
          by_cases hx : id = x
          · subst hx
            simp [h]
          · simp [hx]
        have step2 : x ∈ setAdd id s.reassigned_vars
            ↔ x ∈ s.reassigned_vars ∨ (x ∈ s.declared_vars ∧ 1 ≤ (if id = x then 1 else 0)) ∨
              2 ≤ (if id = x then 1 else 0) := by
          rw [mem_setAdd]
          by_cases hx : id = x
          · subst hx
            simp [h]
          · have hx' : ¬(x = id) := fun hh => hx hh.symm
            simp [hx, hx']
        have := reChars_compose step1 step2 ih.1 ih.2
        simpa [detectReTargets, h, countTargets] using this
      · have ih := detectReTargets_chars rest { s with declared_vars := setAdd id s.declared_vars } x
        have step1 : x ∈ setAdd id s.declared_vars
            ↔ x ∈ s.declared_vars ∨ 1 ≤ (if id = x then 1 else 0) := by
          rw [mem_setAdd]
          by_cases hx : id = x
          · subst hx
            simp
          · have hx' : ¬(x = id) := fun hh => hx hh.symm
            simp [hx, hx']
        have step2 : x ∈ s.reassigned_vars
            ↔ x ∈ s.reassigned_vars ∨ (x ∈ s.declared_vars ∧ 1 ≤ (if id = x then 1 else 0)) ∨
              2 ≤ (if id = x then 1 else 0) := by
          by_cases hx : id = x
          · subst hx
            simp [h]
          · simp [hx]
        have := reChars_compose step1 step2 ih.1 ih.2
        simpa [detectReTargets, h, countTargets] using this
  | .other k :: rest, s, x => by
      have ih := detectReTargets_chars rest s x
      simpa [detectReTargets, countTargets] using ih

mutual

/-- Characterization of `_detect_reassignments` on one statement in terms of
assignment-target counts. -/
theorem detectReS_chars : ∀ (n : Stmt) (s : GenState) (x : String),
    (x ∈ (detectReS n s).declared_vars ↔ x ∈ s.declared_vars ∨ 1 ≤ countS x n) ∧
    (x ∈ (detectReS n s).reassigned_vars ↔
      x ∈ s.reassigned_vars ∨ (x ∈ s.declared_vars ∧ 1 ≤ countS x n) ∨ 2 ≤ countS x n)
  | .assign t0 rest v, s, x => by
      simpa [detectReS, countS] using detectReTargets_chars (t0 :: rest) s x
  | .functionDef nm args rets body, s, x => by
      simpa [detectReS, countS] using detectReL_chars body s x
  | .ifStmt t body orelse, s, x => by
      have h1 := detectReL_chars body s x
      have h2 := detectReL_chars orelse (detectReL body s) x
      have := reChars_compose h1.1 h1.2 h2.1 h2.2
      simpa [detectReS, countS] using this
  | .whileStmt t body, s, x => by
      simpa [detectReS, countS] using detectReL_chars body s x
  | .ret v, s, x => by simp [detectReS, countS]
  | .exprStmt v, s, x => by simp [detectReS, countS]
  | .other k, s, x => by simp [detectReS, countS]

/-- Statement-list version of `detectReS_chars`. -/
theorem detectReL_chars : ∀ (l : List Stmt) (s : GenState) (x : String),
    (x ∈ (detectReL l s).declared_vars ↔ x ∈ s.declared_vars ∨ 1 ≤ countL x l) ∧
    (x ∈ (detectReL l s).reassigned_vars ↔
      x ∈ s.reassigned_vars ∨ (x ∈ s.declared_vars ∧ 1 ≤ countL x l) ∨ 2 ≤ countL x l)
  | [], s, x => by simp [detectReL, countL]
  | n :: rest, s, x => by
      have h1 := detectReS_chars n s x
      have h2 := detectReL_chars rest (detectReS n s) x
      have := reChars_compose h1.1 h1.2 h2.1 h2.2
      simpa [detectReL, countL] using this

end

/-- The two analysis passes of `generate` leave indentation and output
untouched. -/
theorem analyzeModule_frame : ∀ (body : List Stmt) (s : GenState),
    (analyzeModule body s).indent_level = s.indent_level ∧
    (analyzeModule body s).output = s.output
  | [], _ => ⟨rfl, rfl⟩
  | n :: rest, s => by
      have h1 := detectS_sets n s
      have h2 := detectReS_frame n (detectS n s)
      have ih := analyzeModule_frame rest (detectReS n (detectS n s))
      have e1 : (analyzeModule (n :: rest) s) = analyzeModule rest (detectReS n (detectS n s)) := rfl
      rw [e1]
      exact ⟨ih.1.trans (h2.1.trans h1.1), ih.2.trans (h2.2.1.trans h1.2.1)⟩

/-- The interleaved analysis loop preserves the flag invariant: the
reassignment pass never touches the flags, and the runtime pass sets both
together. -/
theorem analyzeModule_inv : ∀ (body : List Stmt) (s : GenState),
    (s.needs_runtime = true → s.needs_allocator = true) →
    ((analyzeModule body s).needs_runtime = true →
      (analyzeModule body s).needs_allocator = true)
  | [], _, h => h
  | n :: rest, s, h => by
      have hS := detectS_inv n s h
      have hfr := detectReS_frame n (detectS n s)
      have hstep : (detectReS n (detectS n s)).needs_runtime = true →
          (detectReS n (detectS n s)).needs_allocator = true := by
        rw [hfr.2.2.1, hfr.2.2.2]; exact hS
      exact analyzeModule_inv rest (detectReS n (detectS n s)) hstep

/-- Membership in the name sets after the full analysis loop, in terms of
assignment counts: the runtime pass leaves the sets unchanged, so the loop
behaves as the reassignment pass alone. -/
theorem analyzeModule_chars : ∀ (body : List Stmt) (s : GenState) (x : String),
    (x ∈ (analyzeModule body s).declared_vars ↔ x ∈ s.declared_vars ∨ 1 ≤ countL x body) ∧
    (x ∈ (analyzeModule body s).reassigned_vars ↔
      x ∈ s.reassigned_vars ∨ (x ∈ s.declared_vars ∧ 1 ≤ countL x body) ∨ 2 ≤ countL x body)
  | [], s, x => by simp [analyzeModule, countL]
  | n :: rest, s, x => by
      have hsets := detectS_sets n s
      have h1 := detectReS_chars n (detectS n s) x
      rw [hsets.2.2.1] at h1
      have h1' : (x ∈ (detectReS n (detectS n s)).declared_vars ↔
          x ∈ s.declared_vars ∨ 1 ≤ countS x n) ∧
          (x ∈ (detectReS n (detectS n s)).reassigned_vars ↔
          x ∈ s.reassigned_vars ∨ (x ∈ s.declared_vars ∧ 1 ≤ countS x n) ∨ 2 ≤ countS x n) := by
        constructor
        · exact h1.1
        · rw [h1.2, hsets.2.2.2]
      have ih := analyzeModule_chars rest (detectReS n (detectS n s)) x
      have := reChars_compose h1'.1 h1'.2 ih.1 ih.2
      have e1 : (analyzeModule (n :: rest) s) = analyzeModule rest (detectReS n (detectS n s)) := rfl
      rw [e1]
      simpa [countL] using this

/-- Composition of two output extensions. -/
theorem outExt_trans {s1 s2 s3 : GenState} {L1 L2 : List String}
    (h1 : s2.output = s1.output ++ L1) (h2 : s3.output = s2.output ++ L2) :
    s3.output = s1.output ++ (L1 ++ L2) := by
  rw [h2, h1, List.append_assoc]

/-- The output line appended by `emit`. -/
theorem emit_out (s : GenState) (c : String) :
    (emit s c).output = s.output ++ [indentStr s.indent_level ++ c] := rfl

/-- The conditional `declared_vars` update at the head of `visit_Assign`
changes no other field. -/
theorem ite_declared_fields (c : Bool) (s : GenState) (X : List String) :
    ((if c then { s with declared_vars := X } else s).indent_level = s.indent_level) ∧
    ((if c then { s with declared_vars := X } else s).output = s.output) ∧
    ((if c then { s with declared_vars := X } else s).needs_runtime = s.needs_runtime) ∧
    ((if c then { s with declared_vars := X } else s).needs_allocator = s.needs_allocator) ∧
    ((if c then { s with declared_vars := X } else s).reassigned_vars = s.reassigned_vars) := by
  cases c <;> simp

/-- The temp-binding loop only appends output lines; every other field is
preserved. -/
theorem emitTempParts_frame (id : String) : ∀ (pcs : List (String × Bool)) (i : Nat) (s : GenState),
    ∃ L, (emitTempParts id pcs i s).1.output = s.output ++ L ∧
      (emitTempParts id pcs i s).1.indent_level = s.indent_level ∧
      (emitTempParts id pcs i s).1.needs_runtime = s.needs_runtime ∧
      (emitTempParts id pcs i s).1.needs_allocator = s.needs_allocator ∧
      (emitTempParts id pcs i s).1.declared_vars = s.declared_vars ∧
      (emitTempParts id pcs i s).1.reassigned_vars = s.reassigned_vars
  | [], _, s => ⟨[], by simp [emitTempParts]⟩
  | (code, false) :: rest, i, s => by
      obtain ⟨L, h1, h2, h3, h4, h5, h6⟩ := emitTempParts_frame id rest (i + 1) s
      exact ⟨L, h1, h2, h3, h4, h5, h6⟩
  | (code, true) :: rest, i, s => by
      have hout : (emit (emit s ("const " ++ ("_temp_" ++ id ++ "_" ++ toString i) ++ " = try " ++ code ++ ";"))
            ("defer runtime.decref(" ++ ("_temp_" ++ id ++ "_" ++ toString i) ++ ", allocator);")).output
          = s.output ++
            [indentStr s.indent_level ++ ("const " ++ ("_temp_" ++ id ++ "_" ++ toString i) ++ " = try " ++ code ++ ";"),
             indentStr s.indent_level ++ ("defer runtime.decref(" ++ ("_temp_" ++ id ++ "_" ++ toString i) ++ ", allocator);")] := by
        simp [emit]
      obtain ⟨L, h1, h2, h3, h4, h5, h6⟩ := emitTempParts_frame id rest (i + 1)
        (emit (emit s ("const " ++ ("_temp_" ++ id ++ "_" ++ toString i) ++ " = try " ++ code ++ ";"))
          ("defer runtime.decref(" ++ ("_temp_" ++ id ++ "_" ++ toString i) ++ ", allocator);"))
      exact ⟨_, outExt_trans hout h1, h2, h3, h4, h5, h6⟩

/-- The concat-fold loop only appends output lines; every other field is
preserved. -/
theorem emitConcatChain_frame (id : String) (n : Nat) :
    ∀ (tvs : List String) (i : Nat) (res : String) (s : GenState),
    ∃ L, (emitConcatChain id n tvs i res s).1.output = s.output ++ L ∧
      (emitConcatChain id n tvs i res s).1.indent_level = s.indent_level ∧
      (emitConcatChain id n tvs i res s).1.needs_runtime = s.needs_runtime ∧
      (emitConcatChain id n tvs i res s).1.needs_allocator = s.needs_allocator ∧
      (emitConcatChain id n tvs i res s).1.declared_vars = s.declared_vars ∧
      (emitConcatChain id n tvs i res s).1.reassigned_vars = s.reassigned_vars
  | [], _, _, s => ⟨[], by simp [emitConcatChain]⟩
  | tv :: rest, i, res, s => by
      by_cases hi : i < n - 1
      · have hout : (emit (emit s ("const " ++ ("_concat_" ++ id ++ "_" ++ toString i) ++
              " = try runtime.PyString.concat(allocator, " ++ res ++ ", " ++ tv ++ ");"))
            ("defer runtime.decref(" ++ ("_concat_" ++ id ++ "_" ++ toString i) ++ ", allocator);")).output
            = s.output ++
              [indentStr s.indent_level ++ ("const " ++ ("_concat_" ++ id ++ "_" ++ toString i) ++
                " = try runtime.PyString.concat(allocator, " ++ res ++ ", " ++ tv ++ ");"),
               indentStr s.indent_level ++ ("defer runtime.decref(" ++ ("_concat_" ++ id ++ "_" ++ toString i) ++ ", allocator);")] := by
          simp [emit]
        obtain ⟨L, h1, h2, h3, h4, h5, h6⟩ := emitConcatChain_frame id n rest (i + 1)
          ("_concat_" ++ id ++ "_" ++ toString i)
          (emit (emit s ("const " ++ ("_concat_" ++ id ++ "_" ++ toString i) ++
              " = try runtime.PyString.concat(allocator, " ++ res ++ ", " ++ tv ++ ");"))
            ("defer runtime.decref(" ++ ("_concat_" ++ id ++ "_" ++ toString i) ++ ", allocator);"))
        have he : emitConcatChain id n (tv :: rest) i res s = emitConcatChain id n rest (i + 1)
          ("_concat_" ++ id ++ "_" ++ toString i)
          (emit (emit s ("const " ++ ("_concat_" ++ id ++ "_" ++ toString i) ++
              " = try runtime.PyString.concat(allocator, " ++ res ++ ", " ++ tv ++ ");"))
            ("defer runtime.decref(" ++ ("_concat_" ++ id ++ "_" ++ toString i) ++ ", allocator);")) := by
          simp only [emitConcatChain, if_pos hi]
        rw [he]
        exact ⟨_, outExt_trans hout h1, h2, h3, h4, h5, h6⟩
      · have hout : (emit s ("const " ++ ("_concat_" ++ id ++ "_" ++ toString i) ++
              " = try runtime.PyString.concat(allocator, " ++ res ++ ", " ++ tv ++ ");")).output
            = s.output ++
              [indentStr s.indent_level ++ ("const " ++ ("_concat_" ++ id ++ "_" ++ toString i) ++
                " = try runtime.PyString.concat(allocator, " ++ res ++ ", " ++ tv ++ ");")] := by
          simp [emit]
        obtain ⟨L, h1, h2, h3, h4, h5, h6⟩ := emitConcatChain_frame id n rest (i + 1)
          ("_concat_" ++ id ++ "_" ++ toString i)
          (emit s ("const " ++ ("_concat_" ++ id ++ "_" ++ toString i) ++
              " = try runtime.PyString.concat(allocator, " ++ res ++ ", " ++ tv ++ ");"))
        have he : emitConcatChain id n (tv :: rest) i res s = emitConcatChain id n rest (i + 1)
          ("_concat_" ++ id ++ "_" ++ toString i)
          (emit s ("const " ++ ("_concat_" ++ id ++ "_" ++ toString i) ++
              " = try runtime.PyString.concat(allocator, " ++ res ++ ", " ++ tv ++ ");")) := by
          simp only [emitConcatChain, if_neg hi]
        rw [he]
        exact ⟨_, outExt_trans hout h1, h2, h3, h4, h5, h6⟩

/-- One `emit` only appends to the output. -/
theorem outExt_emit1 (s : GenState) (c : String) : ∃ L, (emit s c).output = s.output ++ L :=
  ⟨_, rfl⟩

/-- Two `emit`s only append to the output. -/
theorem outExt_emit2 (s : GenState) (c d : String) :
    ∃ L, (emit (emit s c) d).output = s.output ++ L :=
  ⟨_, List.append_assoc _ _ _⟩

/-- The default assignment path only appends output lines; every other field
is preserved. -/
theorem assignDefaultPath_frame {id kw : String} {first : Bool} {v : Expr} {s s' : GenState}
    (h : assignDefaultPath id kw first v s = .ok s') :
    (∃ L, s'.output = s.output ++ L) ∧ s'.indent_level = s.indent_level ∧
    s'.needs_runtime = s.needs_runtime ∧ s'.needs_allocator = s.needs_allocator ∧
    s'.declared_vars = s.declared_vars ∧ s'.reassigned_vars = s.reassigned_vars := by
  unfold assignDefaultPath at h
  split at h
  · exact Except.noConfusion h
  · repeat' split at h
    all_goals injection h with h2
    all_goals subst h2
    all_goals
      first
      | exact ⟨outExt_emit2 _ _ _, rfl, rfl, rfl, rfl, rfl⟩
      | exact ⟨outExt_emit1 _ _, rfl, rfl, rfl, rfl, rfl⟩

/-- The object assignment path only appends output lines; every other field
is preserved. -/
theorem assignObjectPath_frame {id kw : String} {first : Bool} {pcs : List (String × Bool)}
    {s s' : GenState} (h : assignObjectPath id kw first pcs s = .ok s') :
    (∃ L, s'.output = s.output ++ L) ∧ s'.indent_level = s.indent_level ∧
    s'.needs_runtime = s.needs_runtime ∧ s'.needs_allocator = s.needs_allocator ∧
    s'.declared_vars = s.declared_vars ∧ s'.reassigned_vars = s.reassigned_vars := by
  obtain ⟨L0, e0, i0, r0, a0, d0, rr0⟩ := emitTempParts_frame id pcs 0 s
  unfold assignObjectPath at h
  split at h
  · exact Except.noConfusion h
  · split at h
    · injection h with h2
      subst h2
      obtain ⟨L2, e2⟩ := outExt_emit2 (emitTempParts id pcs 0 s).1 _ _
      exact ⟨⟨_, outExt_trans e0 e2⟩, i0, r0, a0, d0, rr0⟩
    · injection h with h2
      subst h2
      obtain ⟨L2, e2⟩ := outExt_emit1 (emitTempParts id pcs 0 s).1 _
      exact ⟨⟨_, outExt_trans e0 e2⟩, i0, r0, a0, d0, rr0⟩
  · next tv0 tv1 rest heq =>
      split at h
      · injection h with h2
        subst h2
        obtain ⟨L1, e1, i1, r1, a1, d1, rr1⟩ := emitConcatChain_frame id
          (tv0 :: tv1 :: rest).length (tv1 :: rest) 1 tv0 (emitTempParts id pcs 0 s).1
        obtain ⟨L2, e2⟩ := outExt_emit2
          (emitConcatChain id (tv0 :: tv1 :: rest).length (tv1 :: rest) 1 tv0
            (emitTempParts id pcs 0 s).1).1 _ _
        exact ⟨⟨_, outExt_trans (outExt_trans e0 e1) e2⟩, i1.trans i0, r1.trans r0,
          a1.trans a0, d1.trans d0, rr1.trans rr0⟩
      · injection h with h2
        subst h2
        obtain ⟨L1, e1, i1, r1, a1, d1, rr1⟩ := emitConcatChain_frame id
          (tv0 :: tv1 :: rest).length (tv1 :: rest) 1 tv0 (emitTempParts id pcs 0 s).1
        obtain ⟨L2, e2⟩ := outExt_emit1
          (emitConcatChain id (tv0 :: tv1 :: rest).length (tv1 :: rest) 1 tv0
            (emitTempParts id pcs 0 s).1).1 _
        exact ⟨⟨_, outExt_trans (outExt_trans e0 e1) e2⟩, i1.trans i0, r1.trans r0,
          a1.trans a0, d1.trans d0, rr1.trans rr0⟩

/-- `visit_Assign` only appends output lines and possibly extends
`declared_vars`; indentation, the flags and the reassignment set are
preserved. -/
theorem visitAssign_frame {t0 : Target} {v : Expr} {s s' : GenState}
    (h : visitAssign t0 v s = .ok s') :
    (∃ L, s'.output = s.output ++ L) ∧ s'.indent_level = s.indent_level ∧
    s'.needs_runtime = s.needs_runtime ∧ s'.needs_allocator = s.needs_allocator ∧
    s'.reassigned_vars = s.reassigned_vars := by
  cases t0 with
  | other k =>
      injection h with h2
      subst h2
      exact ⟨⟨[], (List.append_nil _).symm⟩, rfl, rfl, rfl, rfl⟩
  | name id =>
      simp only [visitAssign] at h
      repeat' split at h
      all_goals
        first
        | exact Except.noConfusion h
        | exact ⟨(assignObjectPath_frame h).1, (assignObjectPath_frame h).2.1,
            (assignObjectPath_frame h).2.2.1, (assignObjectPath_frame h).2.2.2.1,
            (assignObjectPath_frame h).2.2.2.2.2⟩
        | exact ⟨(assignDefaultPath_frame h).1, (assignDefaultPath_frame h).2.1,
            (assignDefaultPath_frame h).2.2.1, (assignDefaultPath_frame h).2.2.2.1,
            (assignDefaultPath_frame h).2.2.2.2.2⟩

mutual

/-- Every statement visitor restores the indentation level it was called
at: bodies are emitted one level deeper and the level is decremented before
the closing brace. -/
theorem visit_indent : ∀ (n : Stmt) (s s' : GenState),
    visit n s = .ok s' → s'.indent_level = s.indent_level
  | .functionDef nm args rets body, s, s', h => by
      simp only [visit] at h
      split at h
      · exact Except.noConfusion h
      · next s2 heq =>
          injection h with h2
          subst h2
          have hb : s2.indent_level = s.indent_level + 1 := visitList_indent body _ s2 heq
          show s2.indent_level - 1 = s.indent_level
          omega
  | .ifStmt test body orelse, s, s', h => by
      simp only [visit] at h
      split at h
      · exact Except.noConfusion h
      · split at h
        · exact Except.noConfusion h
        · next s2 heq =>
            have hb : s2.indent_level = s.indent_level + 1 := visitList_indent body _ s2 heq
            split at h
            · injection h with h2
              subst h2
              show s2.indent_level - 1 = s.indent_level
              omega
            · split at h
              · exact Except.noConfusion h
              · next s5 heq5 =>
                  injection h with h2
                  subst h2
                  have hb5 : s5.indent_level = s2.indent_level - 1 + 1 :=
                    visitList_indent orelse _ s5 heq5
                  show s5.indent_level - 1 = s.indent_level
                  omega
  | .whileStmt test body, s, s', h => by
      simp only [visit] at h
      split at h
      · exact Except.noConfusion h
      · split at h
        · exact Except.noConfusion h
        · next s2 heq =>
            injection h with h2
            subst h2
            have hb : s2.indent_level = s.indent_level + 1 := visitList_indent body _ s2 heq
            show s2.indent_level - 1 = s.indent_level
            omega
  | .ret (some v), s, s', h => by
      simp only [visit] at h
      split at h
      · exact Except.noConfusion h
      · split at h <;> (injection h with h2; subst h2; rfl)
  | .ret none, s, s', h => by
      injection h with h2
      subst h2
      rfl
  | .assign t0 rest v, s, s', h => (visitAssign_frame h).2.1
  | .exprStmt (.const (.str v)), s, s', h => by
      injection h with h2
      subst h2
      rfl
  | .exprStmt (.const (.num n)), s, s', h => by
      simp only [visit] at h
      split at h
      · exact Except.noConfusion h
      · split at h <;> (injection h with h2; subst h2; rfl)
  | .exprStmt (.name i), s, s', h => by
      simp only [visit] at h
      split at h
      · exact Except.noConfusion h
      · split at h <;> (injection h with h2; subst h2; rfl)
  | .exprStmt (.binop l op r), s, s', h => by
      simp only [visit] at h
      split at h
      · exact Except.noConfusion h
      · split at h <;> (injection h with h2; subst h2; rfl)
  | .exprStmt (.compare l op r), s, s', h => by
      simp only [visit] at h
      split at h
      · exact Except.noConfusion h
      · split at h <;> (injection h with h2; subst h2; rfl)
  | .exprStmt (.call f a), s, s', h => by
      simp only [visit] at h
      split at h
      · exact Except.noConfusion h
      · split at h <;> (injection h with h2; subst h2; rfl)
  | .exprStmt (.other k), s, s', h => by
      simp only [visit] at h
      split at h
      · exact Except.noConfusion h
      · split at h <;> (injection h with h2; subst h2; rfl)
  | .other k, s, s', h => Except.noConfusion h

/-- Statement-list version of `visit_indent`. -/
theorem visitList_indent : ∀ (l : List Stmt) (s s' : GenState),
    visitList l s = .ok s' → s'.indent_level = s.indent_level
  | [], s, s', h => by
      injection h with h2
      subst h2
      rfl
  | n :: rest, s, s', h => by
      simp only [visitList] at h
      split at h
      · exact Except.noConfusion h
      · next s1 heq =>
          exact (visitList_indent rest s1 s' h).trans (visit_indent n s s1 heq)

end

/-- The header block preserves the indentation level. -/
theorem emitHeader_indent (s : GenState) : (emitHeader s).indent_level = s.indent_level := by
  simp only [emitHeader]
  split <;> rfl

/-- Opening the `main` wrapper moves exactly one level deeper. -/
theorem openMain_indent (s : GenState) : (openMain s).indent_level = s.indent_level + 1 := by
  simp only [openMain]
  split <;> rfl

/-- A successful `generate` body leaves the indentation level where it
started (every block opener is matched by a closer). -/
theorem generateCore_indent {s : GenState} {p : ParsedModule} {os : String × GenState}
    (h : generateCore s p = .ok os) : os.2.indent_level = s.indent_level := by
  simp only [generateCore] at h
  split at h
  · exact Except.noConfusion h
  · next sF heqF =>
      have hF : sF.indent_level = s.indent_level := by
        have h1 := visitList_indent _ _ sF heqF
        have h2 := emitHeader_indent { analyzeModule p.ast_tree s with declared_vars := [] }
        have h3 : ({ analyzeModule p.ast_tree s with declared_vars := [] } : GenState).indent_level
            = (analyzeModule p.ast_tree s).indent_level := rfl
        have h4 := (analyzeModule_frame p.ast_tree s).1
        exact h1.trans (h2.trans (h3.trans h4))
      split at h
      · injection h with h2
        subst h2
        exact hF
      · split at h
        · exact Except.noConfusion h
        · next sH heqH =>
            injection h with h2
            subst h2
            have h5 : sH.indent_level = (openMain sF).indent_level :=
              visitList_indent _ _ sH heqH
            have h6 := openMain_indent sF
            show sH.indent_level - 1 = s.indent_level
            omega

/-- Two generator states with equal indentation reset to the same state at
the start of `generate`. -/
theorem reset_eq_of_indent {s1 s2 : GenState} (h : s1.indent_level = s2.indent_level) :
    resetForGenerate s1 = resetForGenerate s2 := by
  cases s1 with
  | mk i1 o1 nr1 na1 d1 rr1 =>
    cases s2 with
    | mk i2 o2 nr2 na2 d2 rr2 =>
      have h2 : i1 = i2 := h
      subst h2
      rfl

/-- C10: an `Assign` whose first target is not a simple `Name` node matches
no branch of `visit_Assign`: the method returns with the generator state
completely unchanged — no output lines, no declaration, no indentation
change, and no error. -/
theorem c10_non_name_target_silently_dropped (k : String) (rest : List Target) (v : Expr)
    (s : GenState) : visit (Stmt.assign (Target.other k) rest v) s = Except.ok s := rfl

/-- C5: every statement class without a `visit_` method reaches
`generic_visit` and raises an unsupported-construct error carrying the
class name; every expression class without a `visit_expr` case raises the
analogous error; in particular a module containing a `For` statement makes
`generate` fail with the error naming `For`. -/
theorem c5_unsupported_construct_error :
    (∀ (k : String) (s : GenState), visit (Stmt.other k) s =
      Except.error ("Code generation not implemented for " ++ k)) ∧
    (∀ (k : String) (b : Bool), visitExpr b (Expr.other k) =
      Except.error ("Expression not implemented: " ++ k)) ∧
    generate initState ⟨[Stmt.other "For"], "total = 0\nfor i in range(100): pass", "loop.py"⟩ =
      Except.error "Code generation not implemented for For" :=
  ⟨fun _ _ => rfl, fun _ _ => rfl, rfl⟩

/-- C7: after the analysis pass of `generate` (run on the reset state),
`needs_allocator` is true whenever `needs_runtime` is true: the two flags
are only ever set together. -/
theorem c7_allocator_whenever_runtime (p : ParsedModule) (s0 : GenState)
    (h : (analyzeModule p.ast_tree (resetForGenerate s0)).needs_runtime = true) :
    (analyzeModule p.ast_tree (resetForGenerate s0)).needs_allocator = true :=
  analyzeModule_inv p.ast_tree (resetForGenerate s0) (fun hr => Bool.noConfusion hr) h

/-- Witness for C7 at a module whose single assignment carries a string
literal, which sets the runtime flag. -/
theorem c7_allocator_whenever_runtime_witness :
    (analyzeModule [Stmt.assign (Target.name "s") [] (Expr.const (ConstVal.str "hi"))]
      (resetForGenerate initState)).needs_allocator = true :=
  c7_allocator_whenever_runtime
    ⟨[Stmt.assign (Target.name "s") [] (Expr.const (ConstVal.str "hi"))], "s = \"hi\"", "w.py"⟩
    initState rfl

/-- `find?` returns the first element satisfying the predicate: the list
splits into a prefix of failures, the found element, and a remainder. -/
theorem find?_eq_some_split {p : String → Bool} : ∀ (l : List String) (x : String),
    l.find? p = some x →
    ∃ pre post, l = pre ++ x :: post ∧ p x = true ∧ ∀ q ∈ pre, p q = false
  | [], x, h => by simp [List.find?] at h
  | a :: rest, x, h => by
      by_cases ha : p a = true
      · rw [List.find?_cons_of_pos rest ha] at h
        injection h with h2
        subst h2
        exact ⟨[], rest, rfl, ha, by simp⟩
      · rw [List.find?_cons_of_neg rest ha] at h
        obtain ⟨pre, post, hsplit, hx, hpre⟩ := find?_eq_some_split rest x h
        refine ⟨a :: pre, post, by rw [hsplit]; rfl, hx, ?_⟩
        intro q hq
        rcases List.mem_cons.mp hq with rfl | hq2
        · simpa using ha
        · exact hpre q hq2

/-- C8: the runtime lookup of `compile_zig` selects the first extant path
of the fixed ordered candidate list, and when no candidate exists it fails
with the `CompilationError` whose message lists every path searched. -/
theorem c8_runtime_lookup_first_extant (pathExists : String → Bool) (pkgRoot cwd : String) :
    (∀ chosen, locateRuntimeSource pathExists pkgRoot cwd = .ok chosen →
      ∃ pre post, possiblePaths pkgRoot cwd = pre ++ chosen :: post ∧
        pathExists chosen = true ∧ ∀ q ∈ pre, pathExists q = false) ∧
    ((∀ q ∈ possiblePaths pkgRoot cwd, pathExists q = false) →
      locateRuntimeSource pathExists pkgRoot cwd =
        .error (runtimeNotFoundMessage (possiblePaths pkgRoot cwd))) := by
  constructor
  · intro chosen h
    unfold locateRuntimeSource at h
    split at h
    · next pfound hp =>
        injection h with h2
        subst h2
        exact find?_eq_some_split _ _ hp
    · exact Except.noConfusion h
  · intro hall
    unfold locateRuntimeSource
    have hnone : (possiblePaths pkgRoot cwd).find? pathExists = none := by
      rw [List.find?_eq_none]
      intro q hq
      simp [hall q hq]
    rw [hnone]

/-- Witness for C8 on an abstract file system where no path exists. -/
theorem c8_runtime_lookup_first_extant_witness :
    locateRuntimeSource (fun _ => false) "/app/packages" "/work" =
      Except.error (runtimeNotFoundMessage (possiblePaths "/app/packages" "/work")) :=
  (c8_runtime_lookup_first_extant (fun _ => false) "/app/packages" "/work").2
    (fun _ _ => rfl)

/-- Appending a leaf on the right of a chain wraps the previous chain in
one more `Add` node. -/
theorem mkAddChain_concat (a : Expr) (l : List Expr) (e : Expr) :
    mkAddChain a (l ++ [e]) = Expr.binop (mkAddChain a l) BinOpKind.add e := by
  simp [mkAddChain, List.foldl_append]

/-- Flattening a single `Add` node whose left child is not itself an `Add`
stops immediately: the result is the two children. -/
theorem flattenBinopChain_stop {a : Expr}
    (hstop : ∀ l r, a ≠ Expr.binop l BinOpKind.add r) (r : Expr) :
    flattenBinopChain (Expr.binop a BinOpKind.add r) BinOpKind.add = [a, r] := by
  cases a with
  | binop l2 op2 r2 =>
      have hne : op2 ≠ BinOpKind.add := by
        intro hcontra
        subst hcontra
        exact hstop l2 r2 rfl
      simp [flattenBinopChain, hne]
  | name i => simp [flattenBinopChain]
  | const c => simp [flattenBinopChain]
  | compare l2 op2 r2 => simp [flattenBinopChain]
  | call f args => simp [flattenBinopChain]
  | other k => simp [flattenBinopChain]

/-- Flattening descends into a left child that is an `Add` node. -/
theorem flattenBinopChain_descend (x y r : Expr) :
    flattenBinopChain (Expr.binop (Expr.binop x BinOpKind.add y) BinOpKind.add r) BinOpKind.add
      = flattenBinopChain (Expr.binop x BinOpKind.add y) BinOpKind.add ++ [r] := by
  conv_lhs => rw [flattenBinopChain]
  simp

/-- C9: `_flatten_binop_chain` maps a left-leaning `Add` chain
`((a + b) + c) + d` to its leaves `[a, b, c, d]` in left-to-right source
order, descending only through left children whose operator is `Add` and
stopping at the first non-`Add` node `a`. -/
theorem c9_flatten_left_leaning_add_chain (a : Expr) (rest : List Expr)
    (hne : rest ≠ []) (hstop : ∀ l r, a ≠ Expr.binop l BinOpKind.add r) :
    flattenBinopChain (mkAddChain a rest) BinOpKind.add = a :: rest := by
  induction rest using List.reverseRecOn with
  | nil => exact absurd rfl hne
  | append_singleton l e ih =>
      rw [mkAddChain_concat]
      by_cases hl : l = []
      · subst hl
        exact flattenBinopChain_stop hstop e
      · have hbin : ∃ x y, mkAddChain a l = Expr.binop x BinOpKind.add y := by
          rcases List.eq_nil_or_concat l with rfl | ⟨l2, e2, rfl⟩
          · exact absurd rfl hl
          · refine ⟨mkAddChain a l2, e2, ?_⟩
            rw [List.concat_eq_append, mkAddChain_concat]
        obtain ⟨x, y, hxy⟩ := hbin
        rw [hxy, flattenBinopChain_descend, ← hxy, ih hl]
        rfl

/-- Witness for C9 on the chain `((a + b) + c) + d`. -/
theorem c9_flatten_left_leaning_add_chain_witness :
    flattenBinopChain (mkAddChain (Expr.name "a")
      [Expr.name "b", Expr.name "c", Expr.name "d"]) BinOpKind.add
      = [Expr.name "a", Expr.name "b", Expr.name "c", Expr.name "d"] :=
  c9_flatten_left_leaning_add_chain (Expr.name "a")
    [Expr.name "b", Expr.name "c", Expr.name "d"]
    (by simp) (fun _ _ hcontra => Expr.noConfusion hcontra)

/-- C6: `generate` is deterministic and safe to re-run on the same
generator instance: after a successful run the instance state differs from
a fresh one only in fields that `generate` resets, and the indentation
level is restored, so a second invocation on the same input returns the
byte-identical output and the same final state. -/
theorem c6_generate_deterministic (s : GenState) (p : ParsedModule) (out : String)
    (s' : GenState) (h : generate s p = .ok (out, s')) : generate s' p = .ok (out, s') := by
  have hcore : generateCore (resetForGenerate s) p = .ok (out, s') := h
  have hi0 := generateCore_indent hcore
  have hi : s'.indent_level = s.indent_level := hi0
  have hr : resetForGenerate s' = resetForGenerate s := reset_eq_of_indent hi
  show generateCore (resetForGenerate s') p = .ok (out, s')
  rw [hr]
  exact h

/-- Witness for C6: rerunning `generate` on the instance state left by a
first successful run of `x = 1` reproduces the identical output. -/
theorem c6_generate_deterministic_witness :
    generate
      { indent_level := 0,
        output := ["const std = @import(\"std\");", "", "pub fn main() void \x7b",
          "    const x = 1;", "\x7d"],
        needs_runtime := false, needs_allocator := false,
        declared_vars := ["x"], reassigned_vars := [] }
      ⟨[Stmt.assign (Target.name "x") [] (Expr.const (ConstVal.num 1))], "x = 1", "w.py"⟩ =
    Except.ok ("const std = @import(\"std\");\n\npub fn main() void \x7b\n    const x = 1;\n\x7d",
      { indent_level := 0,
        output := ["const std = @import(\"std\");", "", "pub fn main() void \x7b",
          "    const x = 1;", "\x7d"],
        needs_runtime := false, needs_allocator := false,
        declared_vars := ["x"], reassigned_vars := [] }) :=
  c6_generate_deterministic initState
    ⟨[Stmt.assign (Target.name "x") [] (Expr.const (ConstVal.num 1))], "x = 1", "w.py"⟩
    "const std = @import(\"std\");\n\npub fn main() void \x7b\n    const x = 1;\n\x7d"
    { indent_level := 0,
      output := ["const std = @import(\"std\");", "", "pub fn main() void \x7b",
        "    const x = 1;", "\x7d"],
      needs_runtime := false, needs_allocator := false,
      declared_vars := ["x"], reassigned_vars := [] }
    rfl

/-- C1 evidence: on the module consisting of the single statement
`print("hi")`, the analysis pass leaves `needs_runtime` and
`needs_allocator` false (its `if`/`elif` chain has no `Call` branch, so
string literals inside call arguments are never seen), and `generate`
therefore emits a `void` entry with no allocator setup — while the print
lowering still references `runtime.PyString.create(allocator, ...)`,
contradicting the claim that a single `print("hi")` flips the program to a
fallible entry with allocator setup. -/
theorem c1_print_hi_leaves_runtime_flag_unset :
    generate initState ⟨[Stmt.exprStmt (Expr.call (Expr.name "print")
        [Expr.const (ConstVal.str "hi")])], "print(\"hi\")", "hi.py"⟩ =
      Except.ok
        ("const std = @import(\"std\");\n\npub fn main() void \x7b\n    _ = std.debug.print(\"\x7b\x7d\\n\", .\x7bruntime.PyString.create(allocator, \"hi\")\x7d);\n\x7d",
         { indent_level := 0,
           output := ["const std = @import(\"std\");", "",
             "pub fn main() void \x7b",
             "    _ = std.debug.print(\"\x7b\x7d\\n\", .\x7bruntime.PyString.create(allocator, \"hi\")\x7d);",
             "\x7d"],
           needs_runtime := false, needs_allocator := false,
           declared_vars := [], reassigned_vars := [] }) := rfl

/-- C3: on a first assignment `t = A + B + C` of chained string literals
(runtime mode, fresh declaration scope), `visit_Assign` emits one
`_temp_t_i` binding with a scoped `defer` release per fallible part, one
`_concat_t_i` fold per adjacent pair where the intermediate fold carries a
scoped release and the final fold does not, the binding of `t`, and —
because it is a first assignment — one scoped release for `t` itself. -/
theorem c3_chained_concat_shape (a b c t : String) (lvl : Nat) :
    visitAssign (Target.name t)
      (Expr.binop (Expr.binop (Expr.const (ConstVal.str a)) BinOpKind.add
        (Expr.const (ConstVal.str b))) BinOpKind.add (Expr.const (ConstVal.str c)))
      { indent_level := lvl, output := [], needs_runtime := true, needs_allocator := true,
        declared_vars := [], reassigned_vars := [] }
    = Except.ok
      { indent_level := lvl,
        output :=
          [indentStr lvl ++ ("const " ++ ("_temp_" ++ t ++ "_" ++ toString (0 : Nat)) ++ " = try " ++ ("runtime.PyString.create(allocator, \"" ++ a ++ "\")") ++ ";"),
           indentStr lvl ++ ("defer runtime.decref(" ++ ("_temp_" ++ t ++ "_" ++ toString (0 : Nat)) ++ ", allocator);"),
           indentStr lvl ++ ("const " ++ ("_temp_" ++ t ++ "_" ++ toString (1 : Nat)) ++ " = try " ++ ("runtime.PyString.create(allocator, \"" ++ b ++ "\")") ++ ";"),
           indentStr lvl ++ ("defer runtime.decref(" ++ ("_temp_" ++ t ++ "_" ++ toString (1 : Nat)) ++ ", allocator);"),
           indentStr lvl ++ ("const " ++ ("_temp_" ++ t ++ "_" ++ toString (2 : Nat)) ++ " = try " ++ ("runtime.PyString.create(allocator, \"" ++ c ++ "\")") ++ ";"),
           indentStr lvl ++ ("defer runtime.decref(" ++ ("_temp_" ++ t ++ "_" ++ toString (2 : Nat)) ++ ", allocator);"),
           indentStr lvl ++ ("const " ++ ("_concat_" ++ t ++ "_" ++ toString (1 : Nat)) ++ " = try runtime.PyString.concat(allocator, " ++ ("_temp_" ++ t ++ "_" ++ toString (0 : Nat)) ++ ", " ++ ("_temp_" ++ t ++ "_" ++ toString (1 : Nat)) ++ ");"),
           indentStr lvl ++ ("defer runtime.decref(" ++ ("_concat_" ++ t ++ "_" ++ toString (1 : Nat)) ++ ", allocator);"),
           indentStr lvl ++ ("const " ++ ("_concat_" ++ t ++ "_" ++ toString (2 : Nat)) ++ " = try runtime.PyString.concat(allocator, " ++ ("_concat_" ++ t ++ "_" ++ toString (1 : Nat)) ++ ", " ++ ("_temp_" ++ t ++ "_" ++ toString (2 : Nat)) ++ ");"),
           indentStr lvl ++ ("const" ++ " " ++ t ++ " = " ++ ("_concat_" ++ t ++ "_" ++ toString (2 : Nat)) ++ ";"),
           indentStr lvl ++ ("defer runtime.decref(" ++ t ++ ", allocator);")],
        needs_runtime := true, needs_allocator := true,
        declared_vars := [t], reassigned_vars := [] } := rfl

/-- A value that is not an `Add` binary operation takes the default
(primitive) path of `visit_Assign`. -/
theorem visitAssign_default_eq {x : String} {v : Expr} (s : GenState)
    (hNotAdd : ∀ l r, v ≠ Expr.binop l BinOpKind.add r) :
    visitAssign (Target.name x) v s =
      assignDefaultPath x (if x ∈ s.reassigned_vars then "var" else "const")
        (decide (x ∉ s.declared_vars)) v
        (if decide (x ∉ s.declared_vars) = true then
          { s with declared_vars := setAdd x s.declared_vars } else s) := by
  cases v with
  | binop l op r =>
      cases op with
      | add => exact absurd rfl (hNotAdd l r)
      | sub => rfl
      | mult => rfl
      | div => rfl
      | mod => rfl
      | otherOp nm => rfl
  | name i => rfl
  | const cv => rfl
  | compare l op r => rfl
  | call f args => rfl
  | other k => rfl

/-- C4: the primitive-path forms of `visit_Assign`.  A first assignment of
a non-fallible value to a reassigned name is declared mutable with an
explicit `i64` annotation; a first assignment to a non-reassigned name is
declared immutable with no type annotation; a re-assignment is a bare
store, with a `try` prefix exactly when the value is fallible. -/
theorem c4_primitive_assignment_forms (s : GenState) (x code : String) (v : Expr)
    (hNotAdd : ∀ l r, v ≠ Expr.binop l BinOpKind.add r) :
    (visitExpr s.needs_runtime v = .ok (code, false) → x ∉ s.declared_vars →
      x ∈ s.reassigned_vars →
      visitAssign (Target.name x) v s =
        .ok (emit { s with declared_vars := setAdd x s.declared_vars }
          ("var" ++ " " ++ x ++ ": i64 = " ++ code ++ ";"))) ∧
    (visitExpr s.needs_runtime v = .ok (code, false) → x ∉ s.declared_vars →
      x ∉ s.reassigned_vars →
      visitAssign (Target.name x) v s =
        .ok (emit { s with declared_vars := setAdd x s.declared_vars }
          ("const" ++ " " ++ x ++ " = " ++ code ++ ";"))) ∧
    (visitExpr s.needs_runtime v = .ok (code, false) → x ∈ s.declared_vars →
      visitAssign (Target.name x) v s = .ok (emit s (x ++ " = " ++ code ++ ";"))) ∧
    (visitExpr s.needs_runtime v = .ok (code, true) → x ∈ s.declared_vars →
      visitAssign (Target.name x) v s = .ok (emit s (x ++ " = try " ++ code ++ ";"))) := by
  refine ⟨?_, ?_, ?_, ?_⟩
  · intro hv hnd hre
    rw [visitAssign_default_eq s hNotAdd]
    have hd : decide (x ∉ s.declared_vars) = true := by simp [hnd]
    rw [hd]
    simp [assignDefaultPath, hv, hre]
  · intro hv hnd hre
    rw [visitAssign_default_eq s hNotAdd]
    have hd : decide (x ∉ s.declared_vars) = true := by simp [hnd]
    rw [hd]
    simp [assignDefaultPath, hv, hre]
  · intro hv hdn
    rw [visitAssign_default_eq s hNotAdd]
    have hd : decide (x ∉ s.declared_vars) = false := by simp [hdn]
    rw [hd]
    simp [assignDefaultPath, hv]
  · intro hv hdn
    rw [visitAssign_default_eq s hNotAdd]
    have hd : decide (x ∉ s.declared_vars) = false := by simp [hdn]
    rw [hd]
    simp [assignDefaultPath, hv]

/-- Witness for C4: first assignment `x = 2` where `x` is in the
reassignment set yields the mutable, explicitly `i64`-typed declaration. -/
theorem c4_primitive_assignment_forms_witness :
    visitAssign (Target.name "x") (Expr.const (ConstVal.num 2))
      { indent_level := 0, output := [], needs_runtime := false, needs_allocator := false,
        declared_vars := [], reassigned_vars := ["x"] } =
      Except.ok
        { indent_level := 0, output := ["var x: i64 = 2;"], needs_runtime := false,
          needs_allocator := false, declared_vars := ["x"], reassigned_vars := ["x"] } :=
  (c4_primitive_assignment_forms
    { indent_level := 0, output := [], needs_runtime := false, needs_allocator := false,
      declared_vars := [], reassigned_vars := ["x"] }
    "x" "2" (Expr.const (ConstVal.num 2))
    (fun _ _ hcontra => Expr.noConfusion hcontra)).1 rfl (by decide) (by decide)

/-- On a first assignment, the default path emits the binding line for the
target with the chosen keyword (plus, for a fallible value, a scoped
release after it). -/
theorem assignDefaultPath_first_binding {id kw : String} {v : Expr} {S s' : GenState}
    (h : assignDefaultPath id kw true v S = .ok s') :
    ∃ pre mid post, s'.output = S.output ++ pre ++
      [indentStr S.indent_level ++ (kw ++ " " ++ id ++ mid)] ++ post := by
  unfold assignDefaultPath at h
  split at h
  · exact Except.noConfusion h
  · next vc heq =>
      rw [if_pos rfl] at h
      split at h
      · injection h with h2
        subst h2
        refine ⟨[], " = try " ++ vc.1 ++ ";",
          [indentStr S.indent_level ++ ("defer runtime.decref(" ++ id ++ ", allocator);")], ?_⟩
        simp [emit, List.append_assoc, String.append_assoc]
      · split at h
        · injection h with h2
          subst h2
          refine ⟨[], ": i64 = " ++ vc.1 ++ ";", [], ?_⟩
          simp [emit, String.append_assoc]
        · injection h with h2
          subst h2
          refine ⟨[], " = " ++ vc.1 ++ ";", [], ?_⟩
          simp [emit, String.append_assoc]

/-- On a first assignment, the object path emits the binding line for the
target with the chosen keyword after the temp and concat lines, followed by
the target's scoped release. -/
theorem assignObjectPath_first_binding {id kw : String} {pcs : List (String × Bool)}
    {S s' : GenState} (h : assignObjectPath id kw true pcs S = .ok s') :
    ∃ pre mid post, s'.output = S.output ++ pre ++
      [indentStr S.indent_level ++ (kw ++ " " ++ id ++ mid)] ++ post := by
  obtain ⟨L0, e0, i0, _, _, _, _⟩ := emitTempParts_frame id pcs 0 S
  unfold assignObjectPath at h
  split at h
  · exact Except.noConfusion h
  · next tv heq =>
      rw [if_pos rfl] at h
      injection h with h2
      subst h2
      refine ⟨L0, " = " ++ tv ++ ";",
        [indentStr S.indent_level ++ ("defer runtime.decref(" ++ id ++ ", allocator);")], ?_⟩
      simp [emit, e0, i0, List.append_assoc, String.append_assoc]
  · next tv0 tv1 rest heq =>
      obtain ⟨L1, e1, i1, _, _, _, _⟩ := emitConcatChain_frame id (tv0 :: tv1 :: rest).length
        (tv1 :: rest) 1 tv0 (emitTempParts id pcs 0 S).1
      simp only [List.length_cons] at e1 i1
      rw [if_pos rfl] at h
      injection h with h2
      subst h2
      refine ⟨L0 ++ L1, " = " ++ (emitConcatChain id (tv0 :: tv1 :: rest).length
          (tv1 :: rest) 1 tv0 (emitTempParts id pcs 0 S).1).2 ++ ";",
        [indentStr S.indent_level ++ ("defer runtime.decref(" ++ id ++ ", allocator);")], ?_⟩
      simp [emit, e1, e0, i1, i0, List.append_assoc, String.append_assoc]

/-- C2: a name is in the reassignment set computed by the analysis pass of
`generate` exactly when it is assigned (as a `Name` target) at least twice
in the scanned statement bodies; and on the first emitted assignment of a
name, `visit_Assign` emits its declaration line with the mutable keyword
`var` exactly when the name is in the reassignment set, `const`
otherwise. -/
theorem c2_reassignment_analysis_and_keyword :
    (∀ (body : List Stmt) (s0 : GenState) (x : String),
      x ∈ (analyzeModule body (resetForGenerate s0)).reassigned_vars ↔ 2 ≤ countL x body) ∧
    (∀ (s : GenState) (x : String) (v : Expr) (s' : GenState),
      visitAssign (Target.name x) v s = Except.ok s' → x ∉ s.declared_vars →
      ∃ pre mid post, s'.output = s.output ++ pre ++
        [indentStr s.indent_level ++
          ((if x ∈ s.reassigned_vars then "var" else "const") ++ " " ++ x ++ mid)] ++ post) := by
  constructor
  · intro body s0 x
    have hc := (analyzeModule_chars body (resetForGenerate s0) x).2
    simpa [resetForGenerate] using hc
  · intro s x v s' h hnd
    have hd : decide (x ∉ s.declared_vars) = true := by simp [hnd]
    simp only [visitAssign, hd, if_true] at h
    split at h
    · split at h
      · exact Except.noConfusion h
      · split at h
        · have hres := assignObjectPath_first_binding h
          exact hres
        · have hres := assignDefaultPath_first_binding h
          exact hres
    · have hres := assignDefaultPath_first_binding h
      exact hres

/-- Witness for C2 at the single immutable assignment `y = 7`. -/
theorem c2_reassignment_analysis_and_keyword_witness :
    ∃ pre mid post,
      ({ indent_level := 0, output := ["const y = 7;"], needs_runtime := false,
         needs_allocator := false, declared_vars := ["y"], reassigned_vars := [] } : GenState).output
      = initState.output ++ pre ++
        [indentStr initState.indent_level ++
          ((if "y" ∈ initState.reassigned_vars then "var" else "const") ++ " " ++ "y" ++ mid)]
        ++ post :=
  c2_reassignment_analysis_and_keyword.2 initState "y" (Expr.const (ConstVal.num 7))
    { indent_level := 0, output := ["const y = 7;"], needs_runtime := false,
      needs_allocator := false, declared_vars := ["y"], reassigned_vars := [] }
    rfl (by decide)
